import Mathlib

/-!
# Verification of the NEM transfer-transaction encoder

Shallow embedding of `src/code/make_transaction.py` (module-level table
`TRANSACTION_TYPE` and class `TransactionCreator`), followed by theorems
settling the specification claims.

Modelling conventions:
* Python `bytes` values are `List Nat`, each entry being one byte (0..255).
* Python numbers (`int`/`float`) appearing in the fee and amount paths are
  modelled over `ℚ`; `int(x)` (truncation toward zero) is `pyTrunc`.  All
  constants in the source (`0.05`, `1.25`, `1000000.0`, ...) are exact
  decimals, and every value the claims touch stays far inside the range
  where Python's binary floating point is exact for these computations.
* `int.to_bytes(n, 'little')` raises `OverflowError` on a negative or
  too-large value; this and the other exceptions raised by the source are
  the constructors of `TxError`.
* The two wall-clock reads (`calc_utc_timestamp` inside `get_timestamp`
  and inside `get_deadline`) are modelled by one explicit parameter `now`:
  the whole-second offset from the protocol epoch, i.e. the clock is held
  fixed for the duration of one `run` call.
-/

deriving instance DecidableEq for Except

namespace NemTx

/-- The exceptions the source can raise while encoding:
`encodingError` is Python's `OverflowError` from `int.to_bytes`;
`unknownTransactionKind` is the `KeyError` from the `TRANSACTION_TYPE`
dictionary lookup; `invalidMessageType` is the `Exception` raised in
`set_message_info`; `invalidPublicKey` is the `ValueError` from
`int(public_key, 16)`; `typeError` is Python's `TypeError` from
concatenating a `str` onto `bytes`. -/
inductive TxError where
  | encodingError
  | unknownTransactionKind
  | invalidMessageType
  | invalidPublicKey
  | typeError
deriving DecidableEq, Repr

/-- Little-endian byte list of `v`, exactly `n` bytes (the value layout of
`v.to_bytes(n, 'little')` for in-range `v`). -/
def leBytes : Nat → Nat → List Nat
  | _, 0 => []
  | v, n + 1 => v % 256 :: leBytes (v / 256) n

/-- Little-endian decoding of a byte list back to a natural number. -/
def leDecode : List Nat → Nat
  | [] => 0
  | b :: bs => b + 256 * leDecode bs

/-- Python `int(x)` for an exact rational: truncation toward zero. -/
def pyTrunc (q : ℚ) : Int :=
  if 0 ≤ q.num then ((q.num.toNat / q.den : Nat) : Int)
  else -(((-q.num).toNat / q.den : Nat) : Int)

/-- The UTF-8 encoding of a string as a byte list
(Python `s.encode('utf-8')`). -/
def utf8Bytes (s : String) : List Nat :=
  s.data.flatMap fun c => (String.utf8EncodeChar c).map fun b => b.toNat

/-- ASCII code of the lowercase hexadecimal digit for `n < 16`
(`'0'` = 48 .. `'9'` = 57, `'a'` = 97 .. `'f'` = 102). -/
def hexDigit (n : Nat) : Nat := if n < 10 then 48 + n else 87 + n

/-- Python `bs.hex().encode('utf-8')`: each byte becomes the ASCII codes of
its two lowercase hex digits. -/
def hexAsciiBytes (bs : List Nat) : List Nat :=
  bs.flatMap fun b => [hexDigit (b / 16), hexDigit (b % 16)]

/-- Value of one hexadecimal digit character, if it is one. -/
def hexDigitVal? (c : Char) : Option Nat :=
  if 48 ≤ c.toNat ∧ c.toNat ≤ 57 then some (c.toNat - 48)
  else if 97 ≤ c.toNat ∧ c.toNat ≤ 102 then some (c.toNat - 87)
  else if 65 ≤ c.toNat ∧ c.toNat ≤ 70 then some (c.toNat - 55)
  else none

/-- Whitespace test of C `isspace` in the ASCII range (codes 9 to 13 and
32): the characters Python's numeral parser strips around an ASCII
numeral. -/
def pySpace (c : Char) : Bool :=
  decide (c.toNat = 32 ∨ (9 ≤ c.toNat ∧ c.toNat ≤ 13))

/-- Digit loop of Python `int(s, 16)` after the first digit: consumes
further hexadecimal digits, allows an underscore only singly and only
between two digits, and accepts trailing whitespace after the digit run;
anything else is a `ValueError` (`none`).  The flag `afterUnderscore`
records that the previous character was an underscore, which must be
followed by a digit (so a trailing, doubled, or non-digit-followed
underscore fails). -/
def hexRest (acc : Nat) (afterUnderscore : Bool) : List Char → Option Nat
  | [] => if afterUnderscore then none else some acc
  | c :: cs =>
    match hexDigitVal? c with
    | some d => hexRest (16 * acc + d) false cs
    | none =>
      if afterUnderscore then none
      else if c = '_' then hexRest acc true cs
      else if (c :: cs).all pySpace then some acc else none

/-- Start of the digit run of Python `int(s, 16)`: at least one hexadecimal
digit is required. -/
def hexTail : List Char → Option Nat
  | [] => none
  | c :: cs =>
    match hexDigitVal? c with
    | some d => hexRest d false cs
    | none => none

/-- Part of Python `int(s, 16)` after the optional sign: an optional `0x`
or `0X` prefix may open the numeral, and one underscore may stand directly
after that prefix; then comes the digit run. -/
def hexAfterSign : List Char → Option Nat
  | c0 :: c1 :: rest =>
    if c0 = '0' ∧ (c1 = 'x' ∨ c1 = 'X') then
      match rest with
      | c2 :: rest' => if c2 = '_' then hexTail rest' else hexTail (c2 :: rest')
      | [] => none
    else hexTail (c0 :: c1 :: rest)
  | l => hexTail l

/-- Python `int(s, 16)` on a string of ASCII characters: leading and
trailing whitespace is stripped, then an optional single `+` or `-` sign,
an optional `0x`/`0X` prefix, and a nonempty run of hexadecimal digits of
either case, in which single underscores may stand between two digits (and
one directly after the prefix); any other shape raises `ValueError`,
modelled as `none`.  Accepted examples: `" ff "`, `"0xff"`, `"0x_ff"`,
`"F_F"`, `"-1"` (value `-1`), `"-0"` (value `0`); rejected: `""`, `"0x"`,
`"_ff"`, `"ff_"`, `"f__f"`, `"- 1"`, `"zz"`.  (On text with characters
outside ASCII, CPython first maps Unicode decimal digits and Unicode
whitespace to their ASCII counterparts and then parses the result the same
way; that transform is the identity on ASCII text, over which the
public-key theorems quantify, and is not modelled beyond it.) -/
def pyIntHex? (s : String) : Option Int :=
  match s.data.dropWhile pySpace with
  | [] => none
  | c :: rest =>
    if c = '-' then (hexAfterSign rest).map fun n => -(n : Int)
    else if c = '+' then (hexAfterSign rest).map fun n => (n : Int)
    else (hexAfterSign (c :: rest)).map fun n => (n : Int)

/-- Module-level `TRANSACTION_TYPE` dictionary of the source, as an
association list in source order. -/
def TRANSACTION_TYPE : List (String × Nat) :=
  [("transfer", 0x0101),
   ("importance_transfer", 0x0801),
   ("multisig_aggregate_modification", 0x1001),
   ("multisig_signature", 0x1002),
   ("multisig", 0x1004),
   ("provision_namespace", 0x2001),
   ("mosaic_definition_creation", 0x4001),
   ("mosaic_supply_change", 0x4002)]

/-- Dictionary lookup `TRANSACTION_TYPE[k]` (`none` models the `KeyError`). -/
def lookupType (k : String) : Option Nat :=
  (TRANSACTION_TYPE.find? fun p => p.1 = k).map fun p => p.2

/-- A Python value that is either still a `str` or already `bytes`: the
source stores a string in `self.message_type` and later overwrites the same
attribute with its 4-byte encoding. -/
inductive PyVal where
  | str (s : String)
  | bytes (b : List Nat)
deriving DecidableEq, Repr

/-- The mutable state of a `TransactionCreator` object.  The fields up to
`network_type` are set by `__init__`; `common_data` and `transfer_data`
start as empty `bytes`.  `message_field`, `payload` and `payload_length`
are attributes the source only creates later (inside `run`/
`set_message_info`); they are modelled as fields initialised to `[]`, and
no successful path of the source reads them before writing them. -/
structure TransactionCreator where
  public_key : String
  amount : ℚ
  address : String
  message : Option String
  message_type : PyVal
  transaction_type : String
  network_type : String
  nem_to_micronem : ℚ
  deadline_span : Nat
  common_data : List Nat
  transfer_data : List Nat
  message_field : List Nat
  payload : List Nat
  payload_length : List Nat
deriving DecidableEq, Repr

namespace TransactionCreator

/-- Constructor `TransactionCreator.__init__` with every argument explicit (the source
defaults are `message=None`, `message_type='plane'`,
`transaction_type='transfer'`, `network_type='test'`). -/
def init (public_key : String) (amount : ℚ) (address : String)
    (message : Option String) (message_type : PyVal)
    (transaction_type : String) (network_type : String) :
    TransactionCreator :=
  { public_key := public_key
    amount := amount
    address := address
    message := message
    message_type := message_type
    transaction_type := transaction_type
    network_type := network_type
    nem_to_micronem := 1000000
    deadline_span := 3600
    common_data := []
    transfer_data := []
    message_field := []
    payload := []
    payload_length := [] }

/-- Python truthiness of `self.message`: `None` and the empty string are
falsy. -/
def msgPresent (s : TransactionCreator) : Bool :=
  match s.message with
  | none => false
  | some m => !(m = "")

/-- Method `convert_number_to_byte`: `value.to_bytes(byte_num, 'little')`, which
raises `OverflowError` when the value is negative or does not fit. -/
def convert_number_to_byte (value : Int) (byte_num : Nat) :
    Except TxError (List Nat) :=
  if 0 ≤ value ∧ value < (2 : Int) ^ (8 * byte_num) then
    .ok (leBytes value.toNat byte_num)
  else
    .error .encodingError

/-- Method `set_message_info`: converts `self.message_type` from its string form
to a 4-byte tag (anything other than the strings `'plane'` and
`'encryption'` — including an already-converted `bytes` value — raises the
invalid-message-type exception), then stores the hex-encoded UTF-8 payload
and the two length fields. -/
def set_message_info (s : TransactionCreator) :
    Except TxError TransactionCreator := do
  let tag ←
    if s.message_type = PyVal.str "plane" then
      convert_number_to_byte 1 4
    else if s.message_type = PyVal.str "encryption" then
      convert_number_to_byte 2 4
    else
      throw TxError.invalidMessageType
  let payload := hexAsciiBytes (utf8Bytes (s.message.getD ""))
  let payload_len := payload.length / 2
  let message_field ← convert_number_to_byte (4 + 4 + payload_len) 4
  let payload_length ← convert_number_to_byte payload_len 4
  pure { s with
          message_type := PyVal.bytes tag
          payload := payload
          message_field := message_field
          payload_length := payload_length }

/-- Method `get_transaction_type`: `TRANSACTION_TYPE[self.transaction_type]`
(a missing key raises `KeyError`), then 4 little-endian bytes. -/
def get_transaction_type (transaction_type : String) :
    Except TxError (List Nat) :=
  match lookupType transaction_type with
  | some value => convert_number_to_byte value 4
  | none => .error .unknownTransactionKind

/-- Method `get_version`: network byte `0x68` when `network_type == 'main'`, else
`0x98`, shifted left 24 bits; plus structure version 2 for `transfer` and
`multisig_aggregate_modification`, else 1; 4 little-endian bytes. -/
def get_version (transaction_type network_type : String) :
    Except TxError (List Nat) :=
  let version : Nat :=
    if network_type = "main" then 0x68 <<< 24 else 0x98 <<< 24
  let version : Nat :=
    if transaction_type ∈ ["transfer", "multisig_aggregate_modification"]
    then version + 2 else version + 1
  convert_number_to_byte version 4

/-- Method `get_publickey_length`: the constant 32 as 4 little-endian bytes. -/
def get_publickey_length : Except TxError (List Nat) :=
  convert_number_to_byte 32 4

/-- Method `get_timestamp`: `calc_utc_timestamp()` (the parameter `now`, whole
seconds since the 2015-03-29T00:06:25 UTC epoch) as 4 little-endian
bytes. -/
def get_timestamp (now : Nat) : Except TxError (List Nat) :=
  convert_number_to_byte now 4

/-- Method `get_publickey`: `int(self.public_key, 16)` (a parse failure raises
`ValueError`, surfaced as the invalid-public-key outcome) encoded with
`to_bytes(32, 'little')` — i.e. the *numeric* value little-endian, not the
hex string's own byte order; a negative parsed value or one of 2^256 or
more makes `to_bytes` raise `OverflowError` instead. -/
def get_publickey (public_key : String) : Except TxError (List Nat) :=
  match pyIntHex? public_key with
  | none => .error .invalidPublicKey
  | some key => convert_number_to_byte key 32

/-- Method `calc_fee`: tiered transfer fee from `amount`, plus a message fee from
the already-stored hex payload when a message is present, scaled to
micro-units, truncated and encoded as 8 little-endian bytes. -/
def calc_fee (s : TransactionCreator) : Except TxError (List Nat) :=
  let minimum_fee : ℚ := 5 / 100
  let maximum_fee : ℚ := 125 / 100
  let base_amount : ℚ := 10000
  let fee_per_base_amount : ℚ := 5 / 100
  let base_message_size : Nat := 32
  let fee_per_base_message : ℚ := 5 / 100
  let transfer_fee : ℚ :=
    (pyTrunc (s.amount / base_amount) : ℚ) * fee_per_base_amount
  let transfer_fee := min transfer_fee maximum_fee
  let transfer_fee := max transfer_fee minimum_fee
  let message_fee : ℚ :=
    if msgPresent s then
      let payload_len : Nat := s.payload.length / 2
      fee_per_base_message * (1 + (payload_len / base_message_size : Nat))
    else 0
  let fee := (transfer_fee + message_fee) * s.nem_to_micronem
  convert_number_to_byte (pyTrunc fee) 8

/-- Method `get_deadline`: `calc_utc_timestamp() + self.deadline_span` as 4
little-endian bytes, from the same held-fixed clock reading `now`. -/
def get_deadline (now : Nat) (s : TransactionCreator) :
    Except TxError (List Nat) :=
  convert_number_to_byte (now + s.deadline_span) 4

/-- Method `get_address_length`: the constant 40 as 4 little-endian bytes. -/
def get_address_length : Except TxError (List Nat) :=
  convert_number_to_byte 40 4

/-- Method `get_address`: `self.address.encode('utf-8').hex().encode('utf-8')` —
the ASCII hex digits of the address's UTF-8 bytes (twice as many bytes as
the UTF-8 form; it never fails and performs no length check). -/
def get_address (s : TransactionCreator) : List Nat :=
  hexAsciiBytes (utf8Bytes s.address)

/-- Method `get_amount`: `int(self.amount * self.nem_to_micronem)` as 8
little-endian bytes. -/
def get_amount (s : TransactionCreator) : Except TxError (List Nat) :=
  convert_number_to_byte (pyTrunc (s.amount * s.nem_to_micronem)) 8

/-- Method `run`: the main function.  Each `self.common_data += ...` /
`self.transfer_data += ...` statement of the source appends the value of
one component call to a buffer; the component calls are evaluated here in
exactly the source's order (so an error raised by any of them aborts the
call at the same point), and each buffer is formed by appending the pieces
in that same order — no statement in between ever reads the partially
grown buffers, so this is the same function.  The returned value is the
pair (object state after the call, returned bytes). -/
def run (now : Nat) (s : TransactionCreator) :
    Except TxError (TransactionCreator × List Nat) := do
  -- Step.1
  let s ←
    if msgPresent s then set_message_info s
    else do
      let mf ← convert_number_to_byte 0 4
      pure { s with message_field := mf }
  -- Step.2
  let tb ← get_transaction_type s.transaction_type
  let vb ← get_version s.transaction_type s.network_type
  let sb ← get_timestamp now
  let klb ← get_publickey_length
  let kb ← get_publickey s.public_key
  let fb ← calc_fee s
  let db ← get_deadline now s
  let common_data :=
    s.common_data ++ tb ++ vb ++ sb ++ klb ++ kb ++ fb ++ db
  -- Step.3
  let alb ← get_address_length
  let ab ← get_amount s
  let transfer_data :=
    s.transfer_data ++ alb ++ get_address s ++ ab ++ s.message_field
  let transfer_data ←
    if msgPresent s then
      match s.message_type with
      | PyVal.bytes mt =>
        pure (transfer_data ++ mt ++ s.payload_length ++ s.payload)
      | PyVal.str _ => throw TxError.typeError
    else pure transfer_data
  -- Step.4
  let s := { s with common_data := common_data,
                    transfer_data := transfer_data }
  pure (s, s.common_data ++ s.transfer_data)

end TransactionCreator

/-! ## Basic facts about the byte-level primitives -/

theorem leBytes_length (n : Nat) : ∀ v, (leBytes v n).length = n := by
  induction n with
  | zero => intro v; rfl
  | succ n ih => intro v; simp [leBytes, ih]

theorem leDecode_leBytes (n : Nat) :
    ∀ v, v < 2 ^ (8 * n) → leDecode (leBytes v n) = v := by
  induction n with
  | zero =>
    intro v hv
    interval_cases v
    rfl
  | succ n ih =>
    intro v hv
    have hdiv : v / 256 < 2 ^ (8 * n) := by
      rw [Nat.div_lt_iff_lt_mul (by norm_num : 0 < 256)]
      calc v < 2 ^ (8 * (n + 1)) := hv
        _ = 2 ^ (8 * n) * 256 := by ring
    simp only [leBytes, leDecode, ih (v / 256) hdiv]
    exact Nat.mod_add_div v 256

theorem hexAsciiBytes_length (bs : List Nat) :
    (hexAsciiBytes bs).length = 2 * bs.length := by
  induction bs with
  | nil => rfl
  | cons b bs ih => simp [hexAsciiBytes] at ih ⊢; omega

theorem hexDigit_range (n : Nat) (h : n < 16) :
    (48 ≤ hexDigit n ∧ hexDigit n ≤ 57) ∨
      (97 ≤ hexDigit n ∧ hexDigit n ≤ 102) := by
  unfold hexDigit
  split <;> omega

theorem utf8Bytes_lt_256 (s : String) : ∀ b ∈ utf8Bytes s, b < 256 := by
  intro b hb
  simp only [utf8Bytes, List.mem_flatMap, List.mem_map] at hb
  obtain ⟨c, -, u, -, rfl⟩ := hb
  exact u.toNat_lt

theorem hexAsciiBytes_ascii (bs : List Nat) (hbs : ∀ b ∈ bs, b < 256) :
    ∀ d ∈ hexAsciiBytes bs,
      (48 ≤ d ∧ d ≤ 57) ∨ (97 ≤ d ∧ d ≤ 102) := by
  intro d hd
  simp only [hexAsciiBytes, List.mem_flatMap] at hd
  obtain ⟨b, hb, hd⟩ := hd
  have hb256 := hbs b hb
  simp only [List.mem_cons, List.not_mem_nil, or_false] at hd
  rcases hd with rfl | rfl
  · exact hexDigit_range _ (Nat.div_lt_of_lt_mul (by omega))
  · exact hexDigit_range _ (Nat.mod_lt _ (by norm_num))

/-! ## Facts about `pyTrunc` (Python `int()` truncation) over `ℚ` -/

theorem pyTrunc_eq_floor (q : ℚ) (h : 0 ≤ q) : pyTrunc q = ⌊q⌋ := by
  have hnum : 0 ≤ q.num := Rat.num_nonneg.mpr h
  unfold pyTrunc
  rw [if_pos hnum, Rat.floor_def]
  calc ((q.num.toNat / q.den : Nat) : Int)
      = (q.num.toNat : Int) / (q.den : Int) := Int.natCast_div _ _
    _ = q.num / q.den := by rw [Int.toNat_of_nonneg hnum]

theorem pyTrunc_intCast (n : Int) (h : 0 ≤ n) : pyTrunc (n : ℚ) = n := by
  rw [pyTrunc_eq_floor _ (by exact_mod_cast h), Int.floor_intCast]

theorem pyTrunc_natCast (n : Nat) : pyTrunc (n : ℚ) = n := by
  have := pyTrunc_intCast (n : Int) (Int.natCast_nonneg n)
  rwa [Int.cast_natCast] at this

/-! ## Concrete sample requests -/

/-- A syntactically valid 64-hex-character public key (the zero key). -/
def pk0 : String :=
  "0000000000000000000000000000000000000000000000000000000000000000"

/-- A 40-character address (40 ASCII `A`s; the encoder treats the address
as opaque text). -/
def addr40 : String := "AAAAAAAAAAAAAAAAAAAAAAAAAAAAAAAAAAAAAAAA"

/-- The no-message transfer request used by the concrete claims: amount 12,
40-character address, valid public key, defaults for everything else. -/
def sampleRequest : TransactionCreator :=
  TransactionCreator.init pk0 12 addr40 none (PyVal.str "plane")
    "transfer" "test"

/-- The no-message transfer request with the address replaced by an
arbitrary string (every other field as in `sampleRequest`). -/
def addrTemplate (a : String) : TransactionCreator :=
  TransactionCreator.init pk0 12 a none (PyVal.str "plane")
    "transfer" "test"

/-- Variant of `sampleRequest` with the message set to the string and the message
type left at its default string form. -/
def msgSample (m : String) (mt : PyVal) : TransactionCreator :=
  TransactionCreator.init pk0 12 addr40 (some m) mt "transfer" "test"

/-- The spec's raw hexadecimal decoding of text into bytes: consecutive
pairs of hex digits, most significant digit of each byte first, bytes in
the order written; fails on an odd-length string or a non-digit. -/
def specHexDecode : List Char → Option (List Nat)
  | [] => some []
  | c1 :: c2 :: rest => do
    let d1 ← hexDigitVal? c1
    let d2 ← hexDigitVal? c2
    let bs ← specHexDecode rest
    pure ((16 * d1 + d2) :: bs)
  | [_] => none

/-- Raw hex decoding of a string, per the spec's words for the public-key
field. -/
def specHexDecodeStr (s : String) : Option (List Nat) :=
  specHexDecode s.data

/-- The clamp of the spec's fee formula: `clamp(x, lo, hi)`. -/
def clamp (x lo hi : ℚ) : ℚ := max lo (min x hi)

/-- The spec's transfer-fee formula in display units:
`clamp(floor(amount / 10000) * 0.05, 0.05, 1.25)`. -/
def specTransferFee (a : ℚ) : ℚ :=
  clamp ((⌊a / 10000⌋ : ℚ) * (5 / 100)) (5 / 100) (125 / 100)

namespace TransactionCreator

/-! ## C9: the scalar encoder -/

/-- C9: for every integer value and byte width, `convert_number_to_byte`
returns exactly `width` little-endian bytes that decode back to the value
when `0 ≤ value < 2^(8·width)`, and fails with the encoding error (never
silently truncating) when the value is negative or does not fit. -/
theorem c9_encode_uint (value : Int) (width : Nat) :
    (0 ≤ value → value < 2 ^ (8 * width) →
      convert_number_to_byte value width = .ok (leBytes value.toNat width) ∧
      (leBytes value.toNat width).length = width ∧
      leDecode (leBytes value.toNat width) = value.toNat) ∧
    (value < 0 ∨ 2 ^ (8 * width) ≤ value →
      convert_number_to_byte value width = .error .encodingError) := by
  constructor
  · intro h0 hlt
    have htoNat : value.toNat < 2 ^ (8 * width) := by
      zify [Int.toNat_of_nonneg h0]
      exact_mod_cast hlt
    refine ⟨?_, leBytes_length _ _, leDecode_leBytes _ _ htoNat⟩
    unfold convert_number_to_byte
    rw [if_pos ⟨h0, by exact_mod_cast hlt⟩]
  · intro h
    unfold convert_number_to_byte
    rw [if_neg]
    push_neg
    intro h0
    rcases h with h | h
    · omega
    · exact_mod_cast h

/-- Closed witness for `c9_encode_uint` at value 50000, width 8, and at the
out-of-range value 256, width 1. -/
theorem c9_encode_uint_witness :
    (convert_number_to_byte 50000 8 = .ok (leBytes 50000 8) ∧
      leDecode (leBytes 50000 8) = 50000) ∧
    convert_number_to_byte 256 1 = .error .encodingError := by
  refine ⟨⟨?_, ?_⟩, ?_⟩
  · exact ((c9_encode_uint 50000 8).1 (by norm_num) (by norm_num)).1
  · exact ((c9_encode_uint 50000 8).1 (by norm_num) (by norm_num)).2.2
  · exact (c9_encode_uint 256 1).2 (by norm_num)

/-! ## C3: the version word -/

/-- C3: the 4-byte version word is the little-endian encoding of
`(network byte << 24) + structure version`, with network byte `0x68` for
`main` and `0x98` for `test`, and structure version 2 exactly for
`transfer` and `multisig_aggregate_modification`, else 1; in particular
`('transfer', 'test')` decodes to `0x98000002` and
`('importance_transfer', 'main')` decodes to `0x68000001`. -/
theorem c3_version_word (tt nt : String) (h : nt = "main" ∨ nt = "test") :
    (∃ bs, get_version tt nt = .ok bs ∧ bs.length = 4 ∧
      leDecode bs =
        (if nt = "main" then 0x68 else 0x98) * 2 ^ 24 +
          (if tt = "transfer" ∨ tt = "multisig_aggregate_modification"
           then 2 else 1)) ∧
    (get_version "transfer" "test").map leDecode = .ok 0x98000002 ∧
    (get_version "importance_transfer" "main").map leDecode
      = .ok 0x68000001 := by
  refine ⟨?_, by decide, by decide⟩
  have hmem : (tt ∈ ["transfer", "multisig_aggregate_modification"]) ↔
      (tt = "transfer" ∨ tt = "multisig_aggregate_modification") := by
    simp
  rcases h with rfl | rfl <;>
    by_cases htt : tt = "transfer" ∨ tt = "multisig_aggregate_modification"
  · refine ⟨leBytes 0x68000002 4, ?_, leBytes_length _ _, ?_⟩
    · simp only [get_version]
      rw [if_pos (hmem.mpr htt)]
      decide
    · rw [if_pos rfl, if_pos htt]
      exact leDecode_leBytes 4 _ (by decide)
  · refine ⟨leBytes 0x68000001 4, ?_, leBytes_length _ _, ?_⟩
    · simp only [get_version]
      rw [if_neg (fun hx => htt (hmem.mp hx))]
      decide
    · rw [if_pos rfl, if_neg htt]
      exact leDecode_leBytes 4 _ (by decide)
  · refine ⟨leBytes 0x98000002 4, ?_, leBytes_length _ _, ?_⟩
    · simp only [get_version]
      rw [if_pos (hmem.mpr htt)]
      decide
    · rw [if_neg (by decide : ¬("test" = "main")), if_pos htt]
      exact leDecode_leBytes 4 _ (by decide)
  · refine ⟨leBytes 0x98000001 4, ?_, leBytes_length _ _, ?_⟩
    · simp only [get_version]
      rw [if_neg (fun hx => htt (hmem.mp hx))]
      decide
    · rw [if_neg (by decide : ¬("test" = "main")), if_neg htt]
      exact leDecode_leBytes 4 _ (by decide)

/-- Closed witness for `c3_version_word` at `('multisig', 'test')`. -/
theorem c3_version_word_witness :
    ∃ bs, get_version "multisig" "test" = .ok bs ∧ bs.length = 4 ∧
      leDecode bs = 0x98 * 2 ^ 24 + 1 := by
  have h := (c3_version_word "multisig" "test" (Or.inr rfl)).1
  simpa using h

/-- Evaluation of `convert_number_to_byte` on an in-range natural value. -/
theorem convert_ok_nat (v n : Nat) (h : v < 2 ^ (8 * n)) :
    convert_number_to_byte (v : Int) n = .ok (leBytes v n) := by
  unfold convert_number_to_byte
  rw [if_pos ⟨Int.natCast_nonneg v, by exact_mod_cast h⟩, Int.toNat_natCast]

/-- Reduction of `bind` on an `Except.ok` value. -/
theorem except_ok_bind {ε α β : Type} (x : α) (f : α → Except ε β) :
    (Except.ok x : Except ε α) >>= f = f x := rfl

/-- Reduction of `bind` on an `Except.error` value. -/
theorem except_error_bind {ε α β : Type} (e : ε) (f : α → Except ε β) :
    (Except.error e : Except ε α) >>= f = Except.error e := rfl

/-- Reduction of `pure` in the `Except` monad to `Except.ok`. -/
theorem except_pure_eq {ε α : Type} (x : α) :
    (pure x : Except ε α) = Except.ok x := rfl

/-- Reduction of `throw` in the `Except` monad to `Except.error`. -/
theorem except_throw_eq {ε α : Type} (e : ε) :
    (throw e : Except ε α) = Except.error e := rfl

/-! ## C4: the message sub-block -/

set_option maxRecDepth 40000 in
/-- C4: for a request with message `m` of raw UTF-8 byte length `L` (and a
message type the source accepts), `set_message_info` stores a 4-byte
message-field length decoding to `8 + L`, a 4-byte type tag, a 4-byte
payload length decoding to `L`, and a payload of exactly `2·L` bytes that
are the ASCII codes of hexadecimal digits of the UTF-8 encoding of `m`; in
particular for `"NEM"` the payload length decodes to 3, the message-field
length to 11, and the payload is 6 bytes. -/
theorem c4_message_block (s : TransactionCreator) (m : String)
    (hm : s.message = some m)
    (hmt : s.message_type = PyVal.str "plane" ∨
      s.message_type = PyVal.str "encryption")
    (hL : 8 + (utf8Bytes m).length < 2 ^ 32) :
    (∃ s', set_message_info s = .ok s' ∧
      s'.message_field = leBytes (8 + (utf8Bytes m).length) 4 ∧
      leDecode s'.message_field = 8 + (utf8Bytes m).length ∧
      (∃ t, s'.message_type = PyVal.bytes t ∧ t.length = 4) ∧
      s'.payload_length = leBytes ((utf8Bytes m).length) 4 ∧
      leDecode s'.payload_length = (utf8Bytes m).length ∧
      s'.payload = hexAsciiBytes (utf8Bytes m) ∧
      s'.payload.length = 2 * (utf8Bytes m).length ∧
      ∀ d ∈ s'.payload, (48 ≤ d ∧ d ≤ 57) ∨ (97 ≤ d ∧ d ≤ 102)) ∧
    ((set_message_info (msgSample "NEM" (PyVal.str "plane"))).map fun s' =>
        (leDecode s'.payload_length, leDecode s'.message_field,
          s'.payload.length))
      = .ok (3, 11, 6) := by
  refine ⟨?_, by decide⟩
  have hplen : (hexAsciiBytes (utf8Bytes m)).length / 2
      = (utf8Bytes m).length := by
    rw [hexAsciiBytes_length]; omega
  have hcast : ((4 : Int) + 4 + ((utf8Bytes m).length : Int))
      = (((8 + (utf8Bytes m).length : Nat) : Int)) := by
    push_cast; ring
  rcases hmt with hmt | hmt
  · have hset : set_message_info s = .ok { s with
        message_type := PyVal.bytes (leBytes 1 4)
        payload := hexAsciiBytes (utf8Bytes m)
        message_field := leBytes (8 + (utf8Bytes m).length) 4
        payload_length := leBytes ((utf8Bytes m).length) 4 } := by
      unfold set_message_info
      rw [if_pos hmt, hm]
      simp only [Option.getD_some, hplen,
        show convert_number_to_byte 1 4 = .ok (leBytes 1 4) by decide,
        except_ok_bind, hcast, convert_ok_nat _ 4 hL,
        convert_ok_nat _ 4 (show (utf8Bytes m).length < 2 ^ (8 * 4) by omega),
        except_pure_eq]
    exact ⟨_, hset, rfl, leDecode_leBytes 4 _ hL,
      ⟨leBytes 1 4, rfl, by decide⟩, rfl, leDecode_leBytes 4 _ (by omega),
      rfl, hexAsciiBytes_length _,
      hexAsciiBytes_ascii _ (utf8Bytes_lt_256 m)⟩
  · have hne : ¬(s.message_type = PyVal.str "plane") := by
      rw [hmt]; decide
    have hset : set_message_info s = .ok { s with
        message_type := PyVal.bytes (leBytes 2 4)
        payload := hexAsciiBytes (utf8Bytes m)
        message_field := leBytes (8 + (utf8Bytes m).length) 4
        payload_length := leBytes ((utf8Bytes m).length) 4 } := by
      unfold set_message_info
      rw [if_neg hne, if_pos hmt, hm]
      simp only [Option.getD_some, hplen,
        show convert_number_to_byte 2 4 = .ok (leBytes 2 4) by decide,
        except_ok_bind, hcast, convert_ok_nat _ 4 hL,
        convert_ok_nat _ 4 (show (utf8Bytes m).length < 2 ^ (8 * 4) by omega),
        except_pure_eq]
    exact ⟨_, hset, rfl, leDecode_leBytes 4 _ hL,
      ⟨leBytes 2 4, rfl, by decide⟩, rfl, leDecode_leBytes 4 _ (by omega),
      rfl, hexAsciiBytes_length _,
      hexAsciiBytes_ascii _ (utf8Bytes_lt_256 m)⟩

/-- Closed witness for `c4_message_block` at the `"NEM"` sample request. -/
theorem c4_message_block_witness :
    ∃ s', set_message_info (msgSample "NEM" (PyVal.str "plane")) = .ok s' ∧
      s'.message_field = leBytes (8 + (utf8Bytes "NEM").length) 4 ∧
      leDecode s'.message_field = 8 + (utf8Bytes "NEM").length ∧
      (∃ t, s'.message_type = PyVal.bytes t ∧ t.length = 4) ∧
      s'.payload_length = leBytes ((utf8Bytes "NEM").length) 4 ∧
      leDecode s'.payload_length = (utf8Bytes "NEM").length ∧
      s'.payload = hexAsciiBytes (utf8Bytes "NEM") ∧
      s'.payload.length = 2 * (utf8Bytes "NEM").length ∧
      ∀ d ∈ s'.payload, (48 ≤ d ∧ d ≤ 57) ∨ (97 ≤ d ∧ d ≤ 102) :=
  (c4_message_block (msgSample "NEM" (PyVal.str "plane")) "NEM" rfl
    (Or.inl rfl) (by decide)).1

/-! ## C5: message-type handling -/

/-- C5 (counterexample): the claim says message type `plain` yields tag 1
and `encrypted` yields tag 2; on the code both raise the
invalid-message-type error, because the accepted strings are `'plane'` and
`'encryption'`. -/
theorem c5_counterexample :
    set_message_info (msgSample "NEM" (PyVal.str "plain"))
        = .error .invalidMessageType ∧
    set_message_info (msgSample "NEM" (PyVal.str "encrypted"))
        = .error .invalidMessageType := by
  constructor <;> rfl

/-- C5 (amended): for any request, message type `'plane'` produces the
4-byte tag 1, `'encryption'` produces the 4-byte tag 2, and any other
message-type value fails with the invalid-message-type error. -/
theorem c5_message_type (s : TransactionCreator)
    (hL : 8 + (utf8Bytes (s.message.getD "")).length < 2 ^ 32) :
    (s.message_type = PyVal.str "plane" →
      ∃ s', set_message_info s = .ok s' ∧
        s'.message_type = PyVal.bytes (leBytes 1 4) ∧
        leDecode (leBytes 1 4) = 1) ∧
    (s.message_type = PyVal.str "encryption" →
      ∃ s', set_message_info s = .ok s' ∧
        s'.message_type = PyVal.bytes (leBytes 2 4) ∧
        leDecode (leBytes 2 4) = 2) ∧
    (s.message_type ≠ PyVal.str "plane" →
      s.message_type ≠ PyVal.str "encryption" →
      set_message_info s = .error .invalidMessageType) := by
  have hplen : (hexAsciiBytes (utf8Bytes (s.message.getD ""))).length / 2
      = (utf8Bytes (s.message.getD "")).length := by
    rw [hexAsciiBytes_length]; omega
  have hcast : ((4 : Int) + 4 + ((utf8Bytes (s.message.getD "")).length : Int))
      = (((8 + (utf8Bytes (s.message.getD "")).length : Nat) : Int)) := by
    push_cast; ring
  refine ⟨fun hmt => ?_, fun hmt => ?_, fun h1 h2 => ?_⟩
  · have hset : set_message_info s = .ok { s with
        message_type := PyVal.bytes (leBytes 1 4)
        payload := hexAsciiBytes (utf8Bytes (s.message.getD ""))
        message_field :=
          leBytes (8 + (utf8Bytes (s.message.getD "")).length) 4
        payload_length :=
          leBytes ((utf8Bytes (s.message.getD "")).length) 4 } := by
      unfold set_message_info
      rw [if_pos hmt]
      simp only [hplen,
        show convert_number_to_byte 1 4 = .ok (leBytes 1 4) by decide,
        except_ok_bind, hcast, convert_ok_nat _ 4 hL,
        convert_ok_nat _ 4
          (show (utf8Bytes (s.message.getD "")).length < 2 ^ (8 * 4)
            by omega),
        except_pure_eq]
    exact ⟨_, hset, rfl, by decide⟩
  · have hset : set_message_info s = .ok { s with
        message_type := PyVal.bytes (leBytes 2 4)
        payload := hexAsciiBytes (utf8Bytes (s.message.getD ""))
        message_field :=
          leBytes (8 + (utf8Bytes (s.message.getD "")).length) 4
        payload_length :=
          leBytes ((utf8Bytes (s.message.getD "")).length) 4 } := by
      unfold set_message_info
      rw [if_neg (show ¬(s.message_type = PyVal.str "plane") by
            rw [hmt]; decide),
        if_pos hmt]
      simp only [hplen,
        show convert_number_to_byte 2 4 = .ok (leBytes 2 4) by decide,
        except_ok_bind, hcast, convert_ok_nat _ 4 hL,
        convert_ok_nat _ 4
          (show (utf8Bytes (s.message.getD "")).length < 2 ^ (8 * 4)
            by omega),
        except_pure_eq]
    exact ⟨_, hset, rfl, by decide⟩
  · unfold set_message_info
    rw [if_neg h1, if_neg h2]
    rfl

/-- Closed witness for `c5_message_type`: the `'plane'`, `'encryption'` and
bogus message types on the `"NEM"` sample request. -/
theorem c5_message_type_witness :
    (∃ s', set_message_info (msgSample "NEM" (PyVal.str "plane")) = .ok s' ∧
      s'.message_type = PyVal.bytes (leBytes 1 4) ∧
      leDecode (leBytes 1 4) = 1) ∧
    (∃ s', set_message_info (msgSample "NEM" (PyVal.str "encryption"))
        = .ok s' ∧
      s'.message_type = PyVal.bytes (leBytes 2 4) ∧
      leDecode (leBytes 2 4) = 2) ∧
    set_message_info (msgSample "NEM" (PyVal.str "bogus"))
      = .error .invalidMessageType := by
  refine ⟨?_, ?_, ?_⟩
  · exact (c5_message_type (msgSample "NEM" (PyVal.str "plane"))
      (by decide)).1 rfl
  · exact (c5_message_type (msgSample "NEM" (PyVal.str "encryption"))
      (by decide)).2.1 rfl
  · exact (c5_message_type (msgSample "NEM" (PyVal.str "bogus"))
      (by decide)).2.2 (by decide) (by decide)

/-! ## C6: the public-key field -/

set_option maxRecDepth 10000 in
/-- C6 (counterexample): the claim says the 32-byte public-key field equals
the raw hex-decoded bytes in the order written, and that a hex string not
decoding to exactly 32 bytes is rejected.  On the code, the 64-hex-digit
string `"01" ++ 62 × "0"` raw-decodes to `0x01` followed by 31 zero bytes,
but `get_publickey` emits 31 zero bytes followed by `0x01` (the numeric
value little-endian, i.e. byte-reversed); and the 2-digit string `"ff"`
(one raw byte) is accepted, not rejected. -/
theorem c6_counterexample :
    specHexDecodeStr
        "0100000000000000000000000000000000000000000000000000000000000000"
      = some (1 :: List.replicate 31 0) ∧
    get_publickey
        "0100000000000000000000000000000000000000000000000000000000000000"
      = .ok (List.replicate 31 0 ++ [1]) ∧
    (1 :: List.replicate 31 0 : List Nat) ≠ List.replicate 31 0 ++ [1] ∧
    get_publickey "ff" = .ok (255 :: List.replicate 31 0) := by
  refine ⟨by decide, by decide, by decide, by decide⟩

set_option linter.unusedVariables false in
/-- C6 (amended): over ASCII public-key strings, `get_publickey` fails with
the invalid-public-key error exactly when the string does not parse under
Python's `int(s, 16)` grammar (optional surrounding whitespace, optional
sign, optional `0x`/`0X` prefix, a nonempty hex-digit run with single
underscores between digits); when it parses to a value `v` with
`0 ≤ v < 2^256` the field is the 32-byte little-endian encoding of `v`
(zero-padded, byte-reversed relative to the written hex pairs, any string
length accepted), and when `v` is negative or at least `2^256` it fails
with the `to_bytes` overflow error, not the invalid-public-key error. -/
theorem c6_public_key (pk : String) (hascii : ∀ c ∈ pk.data, c.toNat < 128) :
    (pyIntHex? pk = none →
      get_publickey pk = .error .invalidPublicKey) ∧
    (∀ v : Int, pyIntHex? pk = some v →
      (0 ≤ v → v < 2 ^ 256 →
        get_publickey pk = .ok (leBytes v.toNat 32) ∧
        (leBytes v.toNat 32).length = 32 ∧
        (leDecode (leBytes v.toNat 32) : Int) = v) ∧
      (v < 0 ∨ 2 ^ 256 ≤ v →
        get_publickey pk = .error .encodingError)) := by
  have h256 : ((2 : Int) ^ (8 * 32)) = 2 ^ 256 := by norm_num
  constructor
  · intro h
    unfold get_publickey
    rw [h]
  · intro v hv
    constructor
    · intro h0 hlt
      have hn : v.toNat < 2 ^ 256 := by
        zify [Int.toNat_of_nonneg h0]
        exact hlt
      refine ⟨?_, leBytes_length _ _, ?_⟩
      · unfold get_publickey
        rw [hv]
        show convert_number_to_byte v 32 = _
        unfold convert_number_to_byte
        rw [if_pos ⟨h0, by rw [h256]; exact hlt⟩]
      · rw [leDecode_leBytes _ _ hn]
        exact Int.toNat_of_nonneg h0
    · intro hbad
      unfold get_publickey
      rw [hv]
      show convert_number_to_byte v 32 = _
      unfold convert_number_to_byte
      rw [if_neg ?_]
      rintro ⟨ha, hb⟩
      rw [h256] at hb
      rcases hbad with h | h
      · omega
      · omega

/-- Closed witness for `c6_public_key` at the decorated key `" 0x_ff "`
(whitespace, prefix and underscore all accepted), the negative numeral
`"-1"` (parsed, then rejected by the overflow path) and the non-hex string
`"zz"`. -/
theorem c6_public_key_witness :
    get_publickey " 0x_ff " = .ok (leBytes 255 32) ∧
    get_publickey "-1" = .error .encodingError ∧
    get_publickey "zz" = .error .invalidPublicKey := by
  refine ⟨?_, ?_, ?_⟩
  · exact ((((c6_public_key " 0x_ff " (by decide)).2 255
      (by decide)).1 (by decide)) (by norm_num)).1
  · exact ((c6_public_key "-1" (by decide)).2 (-1)
      (by decide)).2 (Or.inl (by norm_num))
  · exact (c6_public_key "zz" (by decide)).1 (by decide)

/-! ## The fee value, in closed form -/

/-- The tier multiplier of the code's clamped transfer fee: the clamped
floor of `amount / 10000`, at least 1 and at most 25. -/
theorem clamp_tier (k : Int) (hk : 0 ≤ k) :
    max (min ((k : ℚ) * (5 / 100)) (125 / 100)) (5 / 100)
      = ((max 1 (min k 25) : Int) : ℚ) * (5 / 100) := by
  rcases le_or_lt k 25 with h25 | h25
  · rcases le_or_lt 1 k with h1k | h1k
    · rw [min_eq_left (by
          have : (k : ℚ) ≤ 25 := by exact_mod_cast h25
          linarith),
        max_eq_left (by
          have : (1 : ℚ) ≤ (k : ℚ) := by exact_mod_cast h1k
          linarith),
        min_eq_left h25, max_eq_right h1k]
    · have hk0 : k = 0 := by omega
      subst hk0
      norm_num
  · rw [min_eq_right (by
        have : (25 : ℚ) ≤ (k : ℚ) := by exact_mod_cast h25.le
        linarith),
      max_eq_left (by norm_num),
      min_eq_right h25.le, max_eq_right (by norm_num)]
    norm_num

/-- The micro-unit fee of a no-message transfer of `amount` display
units, as the code computes it. -/
def feeMicro (a : ℚ) : Nat := ((max 1 (min ⌊a / 10000⌋ 25)) * 50000).toNat

theorem feeMicro_le (a : ℚ) : feeMicro a ≤ 1250000 := by
  unfold feeMicro
  have h1 : max 1 (min ⌊a / 10000⌋ 25) ≤ 25 :=
    max_le (by norm_num) (min_le_right _ _)
  omega

/-- For a nonnegative amount, the micro-unit fee is exactly the spec's
clamped display-unit transfer fee scaled by 1,000,000. -/
theorem feeMicro_eq_spec (a : ℚ) (ha : 0 ≤ a) :
    ((feeMicro a : ℚ)) = specTransferFee a * 1000000 := by
  have hk : (0 : Int) ≤ ⌊a / 10000⌋ :=
    Int.floor_nonneg.mpr (by positivity)
  have hM : (0 : Int) ≤ max 1 (min ⌊a / 10000⌋ 25) := by
    have := le_max_left (1 : Int) (min ⌊a / 10000⌋ 25)
    omega
  have h50 : (0 : Int) ≤ (max 1 (min ⌊a / 10000⌋ 25)) * 50000 :=
    mul_nonneg hM (by norm_num)
  unfold feeMicro specTransferFee clamp
  rw [max_comm ((5 : ℚ) / 100), clamp_tier _ hk]
  rw [show ((((max 1 (min ⌊a / 10000⌋ 25) * 50000).toNat : Nat)) : ℚ)
      = (((max 1 (min ⌊a / 10000⌋ 25) * 50000 : Int)) : ℚ) by
    exact_mod_cast congrArg (fun z : Int => (z : ℚ))
      (Int.toNat_of_nonneg h50)]
  push_cast
  ring

/-- Evaluation of `calc_fee` on a no-message request with a nonnegative amount:
the 8-byte little-endian encoding of `feeMicro`. -/
theorem calc_fee_noMsg (s : TransactionCreator) (ha : 0 ≤ s.amount)
    (hmicro : s.nem_to_micronem = 1000000) (hmsg : msgPresent s = false) :
    calc_fee s = .ok (leBytes (feeMicro s.amount) 8) := by
  have hk : (0 : Int) ≤ ⌊s.amount / 10000⌋ :=
    Int.floor_nonneg.mpr (by positivity)
  have htr : pyTrunc (s.amount / 10000) = ⌊s.amount / 10000⌋ :=
    pyTrunc_eq_floor _ (by positivity)
  set M : Int := max 1 (min ⌊s.amount / 10000⌋ 25) with hMdef
  have hM1 : 1 ≤ M := le_max_left _ _
  have hM25 : M ≤ 25 := max_le (by norm_num) (min_le_right _ _)
  simp only [calc_fee]
  rw [hmsg, hmicro, htr]
  simp only [Bool.false_eq_true, reduceIte]
  rw [show (max (min ((⌊s.amount / 10000⌋ : ℚ) * (5 / 100)) (125 / 100))
        (5 / 100) + 0) * (1000000 : ℚ)
      = ((M * 50000 : Int) : ℚ) by
    rw [clamp_tier _ hk, ← hMdef]
    push_cast
    ring]
  rw [pyTrunc_intCast _ (by have := hM1; omega)]
  unfold convert_number_to_byte
  rw [if_pos ⟨by have := hM1; omega, by
    have h2p : (2 : Int) ^ (8 * 8) = 18446744073709551616 := by norm_num
    have := hM25
    omega⟩]
  rfl

theorem convert_zero_4 : convert_number_to_byte 0 4 = .ok (leBytes 0 4) := by
  decide

theorem convert_32_4 : convert_number_to_byte 32 4 = .ok (leBytes 32 4) := by
  decide

theorem convert_40_4 : convert_number_to_byte 40 4 = .ok (leBytes 40 4) := by
  decide

/-! ## Unfolding `run` for a no-message request -/

/-- Evaluation of `run` on a no-message request, given each component value:
the returned bytes are the stepwise-appended common block followed by the
transfer block, and the object's buffers retain both blocks. -/
theorem run_noMsg (now : Nat) (s : TransactionCreator)
    (tb vb sb kb fb db ab : List Nat)
    (hmsg : msgPresent s = false)
    (h1 : get_transaction_type s.transaction_type = .ok tb)
    (h2 : get_version s.transaction_type s.network_type = .ok vb)
    (h3 : get_timestamp now = .ok sb)
    (h4 : get_publickey s.public_key = .ok kb)
    (h5 : calc_fee s = .ok fb)
    (h6 : get_deadline now s = .ok db)
    (h7 : get_amount s = .ok ab) :
    run now s = .ok
      ({ s with
          message_field := leBytes 0 4
          common_data := s.common_data ++ tb ++ vb ++ sb ++ leBytes 32 4
            ++ kb ++ fb ++ db
          transfer_data := s.transfer_data ++ leBytes 40 4
            ++ hexAsciiBytes (utf8Bytes s.address) ++ ab ++ leBytes 0 4 },
        (s.common_data ++ tb ++ vb ++ sb ++ leBytes 32 4 ++ kb ++ fb ++ db)
          ++ (s.transfer_data ++ leBytes 40 4
            ++ hexAsciiBytes (utf8Bytes s.address) ++ ab
            ++ leBytes 0 4)) := by
  have hstep1 : (if msgPresent s then set_message_info s
      else do
        let mf ← convert_number_to_byte 0 4
        pure { s with message_field := mf })
      = Except.ok { s with message_field := leBytes 0 4 } := by
    rw [hmsg]
    simp only [Bool.false_eq_true, reduceIte, convert_zero_4,
      except_ok_bind, except_pure_eq]
  obtain ⟨s1, hs1⟩ : ∃ t, ({ s with message_field := leBytes 0 4 }
      : TransactionCreator) = t := ⟨_, rfl⟩
  have epk : s1.public_key = s.public_key := by rw [← hs1]
  have eam : s1.amount = s.amount := by rw [← hs1]
  have ead : s1.address = s.address := by rw [← hs1]
  have eme : s1.message = s.message := by rw [← hs1]
  have emt : s1.message_type = s.message_type := by rw [← hs1]
  have ett : s1.transaction_type = s.transaction_type := by rw [← hs1]
  have ent : s1.network_type = s.network_type := by rw [← hs1]
  have enm : s1.nem_to_micronem = s.nem_to_micronem := by rw [← hs1]
  have eds : s1.deadline_span = s.deadline_span := by rw [← hs1]
  have ecd : s1.common_data = s.common_data := by rw [← hs1]
  have etd : s1.transfer_data = s.transfer_data := by rw [← hs1]
  have emf : s1.message_field = leBytes 0 4 := by rw [← hs1]
  have epl : s1.payload = s.payload := by rw [← hs1]
  have epll : s1.payload_length = s.payload_length := by rw [← hs1]
  have emsg1 : msgPresent s1 = false := by rw [← hs1]; exact hmsg
  have efee : calc_fee s1 = Except.ok fb := by rw [← hs1]; exact h5
  have edl : get_deadline now s1 = Except.ok db := by rw [← hs1]; exact h6
  have eamt : get_amount s1 = Except.ok ab := by rw [← hs1]; exact h7
  have eaddr : get_address s1 = hexAsciiBytes (utf8Bytes s.address) := by
    rw [← hs1]; rfl
  unfold run
  simp only [hmsg, Bool.false_eq_true, reduceIte]
  simp only [convert_zero_4]
  simp only [except_ok_bind]
  simp only [except_pure_eq]
  simp only [except_ok_bind]
  rw [hs1]
  simp only [ett, ent, epk, ecd, etd, emf, eaddr, eam, ead, eme, emt,
    enm, eds, epl, epll]
  simp only [emsg1, Bool.false_eq_true, reduceIte]
  rw [h1]
  rw [except_ok_bind]
  rw [h2]
  rw [except_ok_bind]
  rw [h3]
  rw [except_ok_bind]
  rw [show get_publickey_length = Except.ok (leBytes 32 4)
    from convert_32_4]
  rw [except_ok_bind]
  rw [h4]
  rw [except_ok_bind]
  rw [efee]
  rw [except_ok_bind]
  rw [edl]
  rw [except_ok_bind]
  rw [show get_address_length = Except.ok (leBytes 40 4)
    from convert_40_4]
  rw [except_ok_bind]
  rw [eamt]
  rw [except_ok_bind]

/-- Running `run` twice on the same object (no message): the second call
sees the buffers left by the first and appends the same pieces again, so
the second call's byte count is the object's initial buffer lengths plus
twice each block. -/
theorem run_noMsg_twice (now : Nat) (s : TransactionCreator)
    (tb vb sb kb fb db ab : List Nat)
    (hmsg : msgPresent s = false)
    (h1 : get_transaction_type s.transaction_type = .ok tb)
    (h2 : get_version s.transaction_type s.network_type = .ok vb)
    (h3 : get_timestamp now = .ok sb)
    (h4 : get_publickey s.public_key = .ok kb)
    (h5 : calc_fee s = .ok fb)
    (h6 : get_deadline now s = .ok db)
    (h7 : get_amount s = .ok ab) :
    (((run now s).bind fun p => run now p.1).map fun p => p.2.length)
      = .ok (s.common_data.length + s.transfer_data.length
          + 2 * (tb.length + vb.length + sb.length + 4 + kb.length
            + fb.length + db.length)
          + 2 * (4 + (hexAsciiBytes (utf8Bytes s.address)).length
            + ab.length + 4)) := by
  have hA := run_noMsg now s tb vb sb kb fb db ab hmsg h1 h2 h3 h4 h5 h6 h7
  have hB := run_noMsg now ({ s with
      message_field := leBytes 0 4
      common_data := s.common_data ++ tb ++ vb ++ sb ++ leBytes 32 4
        ++ kb ++ fb ++ db
      transfer_data := s.transfer_data ++ leBytes 40 4
        ++ hexAsciiBytes (utf8Bytes s.address) ++ ab ++ leBytes 0 4 })
    tb vb sb kb fb db ab hmsg h1 h2 h3 h4 h5 h6 h7
  rw [hA]
  simp only [Except.bind]
  rw [hB]
  simp only [Except.map, Except.ok.injEq]
  simp only [List.length_append]
  simp only [leBytes_length]
  omega

/-! ## Concrete component values for the sample requests -/

theorem feeMicro_12 : feeMicro 12 = 50000 := by
  unfold feeMicro
  rw [show ((12 : ℚ)) = ((12 : Nat) : ℚ) by norm_num,
    show ((10000 : ℚ)) = ((10000 : Nat) : ℚ) by norm_num,
    Rat.floor_natCast_div_natCast]
  decide

/-- `calc_fee` on any no-message state with amount 12. -/
theorem calc_fee_12 (s : TransactionCreator) (ha : s.amount = 12)
    (hmicro : s.nem_to_micronem = 1000000) (hmsg : msgPresent s = false) :
    calc_fee s = .ok (leBytes 50000 8) := by
  rw [calc_fee_noMsg s (by rw [ha]; norm_num) hmicro hmsg, ha, feeMicro_12]

/-- `get_amount` on any state with amount 12. -/
theorem get_amount_12 (s : TransactionCreator) (ha : s.amount = 12)
    (hmicro : s.nem_to_micronem = 1000000) :
    get_amount s = .ok (leBytes 12000000 8) := by
  unfold get_amount
  rw [ha, hmicro,
    show ((12 : ℚ) * 1000000) = ((12000000 : Nat) : ℚ) by norm_num,
    pyTrunc_natCast]
  exact convert_ok_nat 12000000 8 (by norm_num)

/-! ## C2: the fee formula -/

/-- C2: for every no-message request with a nonnegative amount, the encoded
fee field is 8 bytes whose little-endian value equals
`clamp(floor(amount / 10000) * 0.05, 0.05, 1.25)` scaled to micro-units;
the display-unit transfer fee always satisfies `0.05 ≤ fee ≤ 1.25`; and
for amount 12 with no message the fee field decodes to exactly 50000. -/
theorem c2_fee_clamped (s : TransactionCreator) (hmsg : s.message = none)
    (ha : 0 ≤ s.amount) (hmicro : s.nem_to_micronem = 1000000) :
    (∃ bs, calc_fee s = .ok bs ∧ bs.length = 8 ∧
      ((leDecode bs : ℚ)) = specTransferFee s.amount * 1000000) ∧
    (5 / 100 : ℚ) ≤ specTransferFee s.amount ∧
    specTransferFee s.amount ≤ 125 / 100 ∧
    (calc_fee sampleRequest).map leDecode = .ok 50000 := by
  have hmsgF : msgPresent s = false := by unfold msgPresent; rw [hmsg]
  refine ⟨⟨leBytes (feeMicro s.amount) 8, calc_fee_noMsg s ha hmicro hmsgF,
    leBytes_length _ _, ?_⟩, ?_, ?_, ?_⟩
  · rw [leDecode_leBytes _ _
      (lt_of_le_of_lt (feeMicro_le s.amount) (by norm_num))]
    exact feeMicro_eq_spec s.amount ha
  · unfold specTransferFee clamp
    exact le_max_left _ _
  · unfold specTransferFee clamp
    exact max_le (by norm_num) (min_le_right _ _)
  · rw [calc_fee_12 sampleRequest rfl rfl rfl]
    simp only [Except.map]
    rw [leDecode_leBytes _ _ (by norm_num)]

/-- Closed witness for `c2_fee_clamped` at the amount-12 sample request. -/
theorem c2_fee_clamped_witness :
    (∃ bs, calc_fee sampleRequest = .ok bs ∧ bs.length = 8 ∧
      ((leDecode bs : ℚ))
        = specTransferFee sampleRequest.amount * 1000000) ∧
    (5 / 100 : ℚ) ≤ specTransferFee sampleRequest.amount ∧
    specTransferFee sampleRequest.amount ≤ 125 / 100 :=
  have h := c2_fee_clamped sampleRequest rfl
    (by norm_num [sampleRequest, TransactionCreator.init]) rfl
  ⟨h.1, h.2.1, h.2.2.1⟩

theorem get_tt_transfer :
    get_transaction_type "transfer" = .ok (leBytes 257 4) := by decide

theorem get_ver_transfer_test :
    get_version "transfer" "test" = .ok (leBytes 0x98000002 4) := by decide

set_option maxRecDepth 10000 in
theorem get_publickey_pk0 : get_publickey pk0 = .ok (leBytes 0 32) := by
  decide

/-! ## C1: the no-message layout (code bug) -/

set_option maxRecDepth 10000 in
/-- C1 (code bug): the claim (and the spec's layout table) says a
no-message transfer is exactly 112 bytes with the address field being the
40 UTF-8 bytes of the 40-character address text.  The code instead emits
the hex-ASCII expansion of the address (80 bytes for a 40-character
address) right after an address-length field that still says 40, so the
output of the sample request is 156 bytes.  The final 4 bytes do decode
to the message-field length 0, as claimed. -/
theorem c1_no_message_layout (now : Nat) (h32 : now + 3600 < 2 ^ 32) :
    ((run now sampleRequest).map fun p => p.2.length) = .ok 156 ∧
    ((run now sampleRequest).map fun p => p.2.drop 152)
      = .ok (leBytes 0 4) ∧
    (hexAsciiBytes (utf8Bytes addr40)).length = 80 ∧
    leDecode (leBytes 40 4) = 40 := by
  have hrun := run_noMsg now sampleRequest (leBytes 257 4)
    (leBytes 0x98000002 4) (leBytes now 4) (leBytes 0 32)
    (leBytes 50000 8) (leBytes (now + 3600) 4) (leBytes 12000000 8)
    rfl get_tt_transfer get_ver_transfer_test
    (convert_ok_nat now 4 (by omega)) get_publickey_pk0
    (calc_fee_12 _ rfl rfl rfl) (convert_ok_nat _ 4 h32)
    (get_amount_12 _ rfl rfl)
  refine ⟨?_, ?_, by decide, by decide⟩
  · rw [hrun]
    simp only [Except.map]
    simp only [sampleRequest, TransactionCreator.init, List.length_append,
      leBytes_length, hexAsciiBytes_length, List.length_nil]
    decide
  · rw [hrun]
    simp only [Except.map]
    congr 1

/-- Closed witness for `c1_no_message_layout` at clock reading 0. -/
theorem c1_no_message_layout_witness :
    ((run 0 sampleRequest).map fun p => p.2.length) = .ok 156 :=
  (c1_no_message_layout 0 (by norm_num)).1

/-! ## C8: address-length validation -/

set_option maxRecDepth 10000 in
/-- C8 (counterexample): the claim says an address whose length is not 40
characters fails with an invalid-address-length error and produces no
output; on the code, encoding the sample request with the 1-character
address `"A"` succeeds and returns a 78-byte sequence. -/
theorem c8_counterexample :
    ((run 0 (addrTemplate "A")).map fun p => p.2.length) = .ok 78 := by
  have hrun := run_noMsg 0 (addrTemplate "A") (leBytes 257 4)
    (leBytes 0x98000002 4) (leBytes 0 4) (leBytes 0 32)
    (leBytes 50000 8) (leBytes 3600 4) (leBytes 12000000 8)
    rfl get_tt_transfer get_ver_transfer_test
    (convert_ok_nat 0 4 (by norm_num)) get_publickey_pk0
    (calc_fee_12 _ rfl rfl rfl) (convert_ok_nat _ 4 (by decide))
    (get_amount_12 _ rfl rfl)
  rw [hrun]
  simp only [Except.map]
  decide

set_option maxRecDepth 10000 in
/-- C8 (amended): the encoder never validates the address length — there
is no invalid-address-length check anywhere in the code.  For any address
string whatsoever, encoding the amount-12 no-message request succeeds,
emitting the constant 40 as the address-length field and the hex-ASCII
expansion of the address's UTF-8 bytes, for a total of
`76 + 2 · utf8_length(address)` bytes. -/
theorem c8_no_address_validation (a : String) :
    ((run 0 (addrTemplate a)).map fun p => p.2.length)
      = .ok (76 + 2 * (utf8Bytes a).length) := by
  have hrun := run_noMsg 0 (addrTemplate a) (leBytes 257 4)
    (leBytes 0x98000002 4) (leBytes 0 4) (leBytes 0 32)
    (leBytes 50000 8) (leBytes 3600 4) (leBytes 12000000 8)
    rfl get_tt_transfer get_ver_transfer_test
    (convert_ok_nat 0 4 (by norm_num)) get_publickey_pk0
    (calc_fee_12 _ rfl rfl rfl)
    (convert_ok_nat _ 4 (by norm_num [addrTemplate, TransactionCreator.init]))
    (get_amount_12 _ rfl rfl)
  rw [hrun]
  simp only [Except.map, Except.ok.injEq]
  simp only [addrTemplate, TransactionCreator.init, List.length_append,
    leBytes_length, hexAsciiBytes_length, List.length_nil]
  omega

/-! ## C10: statefulness of repeated encodes -/

set_option maxRecDepth 10000 in
/-- C10 (counterexample): the claim says no state persists between encode
calls and a second encode of the same request object returns the same
bytes.  On the code, `run` appends to buffers stored on the object: with
the clock held fixed at 0, the first `run` of the sample request returns
156 bytes, a second `run` on the resulting object returns 312 bytes, and
the two byte sequences differ. -/
theorem c10_counterexample :
    ((run 0 sampleRequest).map fun p => p.2.length) = .ok 156 ∧
    (((run 0 sampleRequest).bind fun p => run 0 p.1).map
        fun p => p.2.length) = .ok 312 ∧
    (((run 0 sampleRequest).bind fun p => run 0 p.1).map fun p => p.2)
      ≠ ((run 0 sampleRequest).map fun p => p.2) := by
  have hrun := run_noMsg 0 sampleRequest (leBytes 257 4)
    (leBytes 0x98000002 4) (leBytes 0 4) (leBytes 0 32)
    (leBytes 50000 8) (leBytes 3600 4) (leBytes 12000000 8)
    rfl get_tt_transfer get_ver_transfer_test
    (convert_ok_nat 0 4 (by norm_num)) get_publickey_pk0
    (calc_fee_12 _ rfl rfl rfl)
    (convert_ok_nat 3600 4 (by norm_num)) (get_amount_12 _ rfl rfl)
  have hrun2 := run_noMsg 0 ({ sampleRequest with
      message_field := leBytes 0 4
      common_data := sampleRequest.common_data ++ leBytes 257 4
        ++ leBytes 0x98000002 4 ++ leBytes 0 4 ++ leBytes 32 4
        ++ leBytes 0 32 ++ leBytes 50000 8 ++ leBytes 3600 4
      transfer_data := sampleRequest.transfer_data ++ leBytes 40 4
        ++ hexAsciiBytes (utf8Bytes sampleRequest.address)
        ++ leBytes 12000000 8 ++ leBytes 0 4 })
    (leBytes 257 4) (leBytes 0x98000002 4) (leBytes 0 4) (leBytes 0 32)
    (leBytes 50000 8) (leBytes 3600 4) (leBytes 12000000 8)
    rfl get_tt_transfer get_ver_transfer_test
    (convert_ok_nat 0 4 (by norm_num)) get_publickey_pk0
    (calc_fee_12 _ rfl rfl rfl)
    (convert_ok_nat 3600 4 (by norm_num)) (get_amount_12 _ rfl rfl)
  refine ⟨?_, ?_, ?_⟩
  · rw [hrun]
    simp only [Except.map]
    decide
  · rw [hrun]
    simp only [Except.bind]
    rw [hrun2]
    simp only [Except.map]
    decide
  · rw [hrun]
    simp only [Except.bind]
    rw [hrun2]
    simp only [Except.map]
    decide

set_option maxRecDepth 10000 in
/-- C10 (amended): with the clock held fixed, encoding is a deterministic
function of the request fields, the object's stored buffers and the clock
reading; but state persists on the creator object between encode calls —
`run` appends to the object's buffers, so for any clock reading a second
`run` on the same object returns 312 bytes where the first returned 156,
an accumulation rather than the same byte sequence. -/
theorem c10_stateful_accumulation (now : Nat) (h : now + 3600 < 2 ^ 32) :
    ((run now sampleRequest).map fun p => p.2.length) = .ok 156 ∧
    (((run now sampleRequest).bind fun p => run now p.1).map
        fun p => p.2.length) = .ok 312 := by
  have hrun := run_noMsg now sampleRequest (leBytes 257 4)
    (leBytes 0x98000002 4) (leBytes now 4) (leBytes 0 32)
    (leBytes 50000 8) (leBytes (now + 3600) 4) (leBytes 12000000 8)
    rfl get_tt_transfer get_ver_transfer_test
    (convert_ok_nat now 4 (by omega)) get_publickey_pk0
    (calc_fee_12 _ rfl rfl rfl) (convert_ok_nat _ 4 h)
    (get_amount_12 _ rfl rfl)
  have htwice := run_noMsg_twice now sampleRequest (leBytes 257 4)
    (leBytes 0x98000002 4) (leBytes now 4) (leBytes 0 32)
    (leBytes 50000 8) (leBytes (now + 3600) 4) (leBytes 12000000 8)
    rfl get_tt_transfer get_ver_transfer_test
    (convert_ok_nat now 4 (by omega)) get_publickey_pk0
    (calc_fee_12 _ rfl rfl rfl) (convert_ok_nat _ 4 h)
    (get_amount_12 _ rfl rfl)
  constructor
  · rw [hrun]
    simp only [Except.map, Except.ok.injEq]
    simp only [List.length_append]
    simp only [leBytes_length]
    simp only [hexAsciiBytes_length]
    simp only [sampleRequest, TransactionCreator.init]
    simp only [List.length_nil]
    rw [show (utf8Bytes addr40).length = 40 by decide]
  · rw [htwice]
    simp only [Except.ok.injEq]
    simp only [leBytes_length]
    simp only [hexAsciiBytes_length]
    simp only [sampleRequest, TransactionCreator.init]
    simp only [List.length_nil]
    rw [show (utf8Bytes addr40).length = 40 by decide]

/-- Closed witness for `c10_stateful_accumulation` at clock reading 0. -/
theorem c10_stateful_accumulation_witness :
    ((run 0 sampleRequest).map fun p => p.2.length) = .ok 156 ∧
    (((run 0 sampleRequest).bind fun p => run 0 p.1).map
        fun p => p.2.length) = .ok 312 :=
  c10_stateful_accumulation 0 (by norm_num)

/-! ## C7: the type-code table and unknown kinds -/

theorem convert_one_4 : convert_number_to_byte 1 4 = .ok (leBytes 1 4) := by
  decide

theorem convert_two_4 : convert_number_to_byte 2 4 = .ok (leBytes 2 4) := by
  decide

/-- Splitting a successful `bind` in the `Except` monad. -/
theorem ok_of_bind_ok {ε α β : Type} {x : Except ε α} {f : α → Except ε β}
    {b : β} (h : (x >>= f) = .ok b) : ∃ a, x = .ok a ∧ f a = .ok b := by
  cases x with
  | error e => exact absurd h (by simp [except_error_bind])
  | ok a => exact ⟨a, rfl, h⟩

/-- Invariance: `set_message_info` never changes the transaction kind. -/
theorem set_message_info_tt (s s' : TransactionCreator)
    (h : set_message_info s = .ok s') :
    s'.transaction_type = s.transaction_type := by
  unfold set_message_info at h
  by_cases h1 : s.message_type = PyVal.str "plane"
  · rw [if_pos h1] at h
    rw [convert_one_4] at h
    rw [except_ok_bind] at h
    obtain ⟨mf, -, h⟩ := ok_of_bind_ok h
    obtain ⟨pl, -, h⟩ := ok_of_bind_ok h
    rw [except_pure_eq] at h
    cases h
    rfl
  · by_cases h2 : s.message_type = PyVal.str "encryption"
    · rw [if_neg h1, if_pos h2] at h
      rw [convert_two_4] at h
      rw [except_ok_bind] at h
      obtain ⟨mf, -, h⟩ := ok_of_bind_ok h
      obtain ⟨pl, -, h⟩ := ok_of_bind_ok h
      rw [except_pure_eq] at h
      cases h
      rfl
    · rw [if_neg h1, if_neg h2] at h
      exact absurd h (by simp [except_throw_eq, except_error_bind])

set_option maxRecDepth 10000 in
/-- C7: `get_transaction_type` maps each kind of the fixed table to its
4-byte little-endian protocol code, and for every request whose kind is
absent from the table (and whose message step does not itself fail first)
`run` fails with the unknown-transaction-kind error, returning no bytes. -/
theorem c7_type_table :
    (get_transaction_type "transfer" = .ok (leBytes 0x0101 4) ∧
     get_transaction_type "importance_transfer" = .ok (leBytes 0x0801 4) ∧
     get_transaction_type "multisig_aggregate_modification"
       = .ok (leBytes 0x1001 4) ∧
     get_transaction_type "multisig_signature" = .ok (leBytes 0x1002 4) ∧
     get_transaction_type "multisig" = .ok (leBytes 0x1004 4) ∧
     get_transaction_type "provision_namespace" = .ok (leBytes 0x2001 4) ∧
     get_transaction_type "mosaic_definition_creation"
       = .ok (leBytes 0x4001 4) ∧
     get_transaction_type "mosaic_supply_change" = .ok (leBytes 0x4002 4)) ∧
    ([0x0101, 0x0801, 0x1001, 0x1002, 0x1004, 0x2001, 0x4001,
        0x4002].map fun c => leDecode (leBytes c 4))
      = [0x0101, 0x0801, 0x1001, 0x1002, 0x1004, 0x2001, 0x4001, 0x4002] ∧
    ∀ (now : Nat) (s : TransactionCreator),
      lookupType s.transaction_type = none →
      (msgPresent s = true → ∃ s', set_message_info s = .ok s') →
      run now s = .error .unknownTransactionKind := by
  refine ⟨by decide, by decide, ?_⟩
  intro now s hlk hset
  have herr : get_transaction_type s.transaction_type
      = .error .unknownTransactionKind := by
    unfold get_transaction_type
    rw [hlk]
  by_cases hm : msgPresent s = true
  · obtain ⟨s', hs'⟩ := hset hm
    have himg : get_transaction_type s'.transaction_type
        = .error .unknownTransactionKind := by
      rw [set_message_info_tt s s' hs']
      exact herr
    unfold run
    simp only [hm, reduceIte]
    simp only [hs']
    simp only [except_ok_bind]
    simp only [himg]
    simp only [except_error_bind]
  · have hmF : msgPresent s = false := by
      cases hmb : msgPresent s
      · rfl
      · exact absurd hmb hm
    unfold run
    simp only [hmF, Bool.false_eq_true, reduceIte]
    simp only [convert_zero_4]
    simp only [except_ok_bind]
    simp only [except_pure_eq]
    simp only [except_ok_bind]
    simp only [herr]
    simp only [except_error_bind]

/-- Closed witness for `c7_type_table`: the misspelled kind
`"transferz"` makes `run` fail with the unknown-kind error. -/
theorem c7_type_table_witness :
    run 5 (init pk0 12 addr40 none (PyVal.str "plane") "transferz" "test")
      = .error .unknownTransactionKind :=
  c7_type_table.2.2 5 _ rfl (fun hm => absurd hm (by decide))

end TransactionCreator

end NemTx
